import Mathlib

/-!
Shallow embedding of `record_manager<Link>` from
`src/include/bitcoin/database/impl/record_manager.ipp` (libbitcoin-database).

Machine integers are modelled as `Nat` with explicit reductions:
`size_t` / `file_offset` arithmetic is taken modulo `2^64` (`wordMod`),
and values of the template parameter `Link` (an unsigned integer of
`linkWidth` bytes) are taken modulo `2^(8*linkWidth)` (`linkMod`).

The growable `storage` collaborator and the memory accessor are external
to the repository (only their interface is visible in the source); they
are modelled from the spec (section 6 of spec.md).
-/

namespace LibbitcoinDB

/-- Modulus of `size_t` / `file_offset` arithmetic (64-bit machine). -/
def wordMod : Nat := 2 ^ 64

/-- Modelled from the spec: the external Growable Storage collaborator
(spec section 6).  `data` is the file's byte content; `limit` is the fixed
maximum size beyond which the device rejects growth (used to model
`resize`/`reserve` failure). -/
structure storage where
  data : List Nat
  limit : Nat
deriving DecidableEq

/-- Modelled from the spec: `size() -> integer`, current file size in bytes. -/
def storage.size (s : storage) : Nat := s.data.length

/-- Modelled from the spec: `reserve(min_size) -> bool` ensures file size is
at least `min_size`, growing (zero-filled) if necessary; returns false on
failure (growth beyond `limit`), leaving the file unchanged. -/
def storage.reserve (s : storage) (min_size : Nat) : Bool × storage :=
  if min_size ≤ s.data.length then (true, s)
  else if min_size ≤ s.limit then
    (true, ⟨s.data ++ List.replicate (min_size - s.data.length) 0, s.limit⟩)
  else (false, s)

/-- Modelled from the spec: `resize(new_size) -> success|fatal` sets the file
size exactly (zero-filling any extension); `none` models the exception thrown
on insufficient space. -/
def storage.resize (s : storage) (new_size : Nat) : Option storage :=
  if new_size ≤ s.limit then
    some ⟨s.data.take new_size ++ List.replicate (new_size - s.data.length) 0, s.limit⟩
  else none

/-- Little-endian encoding of `v` into exactly `w` bytes
(as in `write_little_endian<Link>`). -/
def toLE : Nat → Nat → List Nat
  | 0, _ => []
  | w + 1, v => v % 256 :: toLE w (v / 256)

/-- Little-endian decoding of a byte list
(as in `from_little_endian_unsafe<Link>`). -/
def fromLE : List Nat → Nat
  | [] => 0
  | b :: rest => b + 256 * fromLE rest

/-- Overwrite `bytes.length` bytes of `data` starting at offset `off`. -/
def writeBytes (data : List Nat) (off : Nat) (bytes : List Nat) : List Nat :=
  data.take off ++ bytes ++ data.drop (off + bytes.length)

/-- Read `len` bytes of `data` starting at offset `off`. -/
def readBytes (data : List Nat) (off len : Nat) : List Nat :=
  (data.drop off).take len

/-- The state of a `record_manager<Link>`: the fixed geometry
(`header_size_`, `record_size_`, and `sizeof(Link)` as `linkWidth`) and the
in-memory cached count `record_count_` (a `Link` value).  The backing
`storage` is passed explicitly to each operation. -/
structure record_manager where
  linkWidth : Nat
  header_size : Nat
  record_size : Nat
  record_count : Nat
deriving DecidableEq

/-- Modulus of `Link` arithmetic: `2^(8*sizeof(Link))`. -/
def linkMod (m : record_manager) : Nat := 2 ^ (8 * m.linkWidth)

/-- `record_manager` constructor: caches `record_count_ = 0`
(record_manager.ipp:48-56). -/
def record_manager.construct (linkWidth header_size record_size : Nat) :
    record_manager :=
  ⟨linkWidth, header_size, record_size, 0⟩

/-- `link_to_position(link) = sizeof(Link) + link * record_size_`, computed
in `file_offset` (64-bit) arithmetic (record_manager.ipp:190-194). -/
def record_manager.link_to_position (m : record_manager) (link : Nat) : Nat :=
  (m.linkWidth + link * m.record_size) % wordMod

/-- `position_to_link(position) = (position - sizeof(Link)) / record_size_`,
computed in `file_offset` arithmetic (unsigned subtraction wraps), with the
result converted to `Link` (record_manager.ipp:184-188). -/
def record_manager.position_to_link (m : record_manager) (position : Nat) : Nat :=
  (((position + wordMod - m.linkWidth) % wordMod) / m.record_size) % linkMod m

/-- `read_count`: decode `sizeof(Link)` little-endian bytes at offset
`header_size_` (record_manager.ipp:159-169). -/
def record_manager.read_count (m : record_manager) (s : storage) : Nat :=
  fromLE (readBytes s.data m.header_size m.linkWidth)

/-- `write_count`: encode `record_count_` as `sizeof(Link)` little-endian
bytes at offset `header_size_` (record_manager.ipp:171-182). -/
def record_manager.write_count (m : record_manager) (s : storage) : storage :=
  ⟨writeBytes s.data m.header_size (toLE m.linkWidth m.record_count), s.limit⟩

/-- `create()`: fails (returns false) if the cached count is nonzero;
otherwise resizes the file to `header_size_ + link_to_position(0)` bytes
(`none` models the exception thrown by a failed resize), writes the count,
and returns true (record_manager.ipp:58-74). -/
def record_manager.create (m : record_manager) (s : storage) :
    Option (Bool × storage) :=
  if m.record_count ≠ 0 then some (false, s)
  else
    match s.resize ((m.header_size + m.link_to_position m.record_count) % wordMod) with
    | none => none
    | some s1 => some (true, m.write_count s1)

/-- `start()`: loads the persisted count into the cache and returns whether
`header_size_ + link_to_position(record_count_) <= file_.size()`
(record_manager.ipp:76-89). -/
def record_manager.start (m : record_manager) (s : storage) :
    Bool × record_manager :=
  let c := m.read_count s
  let m1 : record_manager := { m with record_count := c }
  let minimum := (m1.header_size + m1.link_to_position c) % wordMod
  (decide (minimum ≤ s.size), m1)

/-- `commit()`: flush the cached count to storage (record_manager.ipp:91-99). -/
def record_manager.commit (m : record_manager) (s : storage) : storage :=
  m.write_count s

/-- `count()`: the cached in-memory count (record_manager.ipp:101-109). -/
def record_manager.count (m : record_manager) : Nat := m.record_count

/-- `set_count(value)`: `BITCOIN_ASSERT(value <= record_count_)` then assign;
`none` models the fatal assertion on `value > record_count_`
(record_manager.ipp:111-120). -/
def record_manager.set_count (m : record_manager) (value : Nat) :
    Option record_manager :=
  if value ≤ m.record_count then some { m with record_count := value }
  else none

/-- The `required_size = header_size_ + link_to_position(record_count_ + count)`
computation of `allocate` (record_manager.ipp:132-134): `record_count_ + count`
is computed in `size_t` and converted to the `Link` parameter of
`link_to_position`. -/
def record_manager.alloc_required (m : record_manager) (n : Nat) : Nat :=
  (m.header_size +
    m.link_to_position (((m.record_count + n) % wordMod) % linkMod m)) % wordMod

/-- Whether the `file_.reserve(required_size)` call inside `allocate` succeeds. -/
def record_manager.allocate_ok (m : record_manager) (s : storage) (n : Nat) :
    Bool :=
  (s.reserve (m.alloc_required n)).1

/-- `allocate(count)`: reserve `required_size`; on failure return 0 with the
count unchanged; on success advance `record_count_` by `count` (in `Link`
arithmetic) and return the previous count (record_manager.ipp:124-143). -/
def record_manager.allocate (m : record_manager) (s : storage) (n : Nat) :
    Nat × record_manager × storage :=
  let next := m.record_count
  match s.reserve (m.alloc_required n) with
  | (false, s1) => (0, m, s1)
  | (true, s1) =>
    (next, { m with record_count := ((m.record_count + n) % wordMod) % linkMod m }, s1)

/-- `get(link)`: the byte position of the returned accessor,
`header_size_ + link_to_position(link)` in `size_t` arithmetic; the cached
count is not consulted (record_manager.ipp:145-155). -/
def record_manager.get (m : record_manager) (link : Nat) : Nat :=
  (m.header_size + m.link_to_position link) % wordMod

/-- Run a sequence of `allocate` calls, collecting for each call the returned
starting link and the value of `count()` immediately after the call. -/
def runAllocs (m : record_manager) (s : storage) :
    List Nat → List (Nat × Nat) × record_manager × storage
  | [] => ([], m, s)
  | n :: rest =>
    let r := m.allocate s n
    let t := runAllocs r.2.1 r.2.2 rest
    ((r.1, r.2.1.record_count) :: t.1, t.2)

/-- Every `allocate` call in the sequence succeeds (its `reserve` returns true). -/
def allOk (m : record_manager) (s : storage) : List Nat → Bool
  | [] => true
  | n :: rest =>
    m.allocate_ok s n && allOk (m.allocate s n).2.1 (m.allocate s n).2.2 rest

/-- The expected `(starting link, count after)` pairs of the spec's
allocation-monotonicity property: starting from count `c`, each call's link is
the sum of all previously allocated sizes and the count after is that running
sum plus its own size. -/
def runningSums (c : Nat) : List Nat → List (Nat × Nat)
  | [] => []
  | n :: rest => (c, c + n) :: runningSums (c + n) rest

/-! ### Helper lemmas -/

lemma toLE_length (w v : Nat) : (toLE w v).length = w := by
  induction w generalizing v with
  | zero => rfl
  | succ w ih => simp [toLE, ih]

lemma fromLE_toLE (w v : Nat) (h : v < 2 ^ (8 * w)) : fromLE (toLE w v) = v := by
  induction w generalizing v with
  | zero =>
    simp only [Nat.mul_zero, pow_zero, Nat.lt_one_iff] at h
    simp [toLE, fromLE, h]
  | succ w ih =>
    have hpow : (2 : Nat) ^ (8 * (w + 1)) = 256 * 2 ^ (8 * w) := by
      rw [Nat.mul_succ, pow_add]; ring
    have hdiv : v / 256 < 2 ^ (8 * w) :=
      Nat.div_lt_of_lt_mul (hpow ▸ h)
    simp only [toLE, fromLE, ih (v / 256) hdiv]
    exact Nat.mod_add_div v 256

lemma writeBytes_length (data bytes : List Nat) (off : Nat)
    (h : off + bytes.length ≤ data.length) :
    (writeBytes data off bytes).length = data.length := by
  simp only [writeBytes, List.length_append, List.length_take, List.length_drop]
  omega

lemma readBytes_writeBytes (data bytes : List Nat) (off : Nat)
    (h : off ≤ data.length) :
    readBytes (writeBytes data off bytes) off bytes.length = bytes := by
  simp only [readBytes, writeBytes, List.append_assoc]
  rw [List.drop_left' (by simp [List.length_take]; omega),
    List.take_left' rfl]

lemma reserve_snd_of_false (s : storage) (r : Nat)
    (h : (s.reserve r).1 = false) : (s.reserve r).2 = s := by
  unfold storage.reserve at h ⊢
  split_ifs at h ⊢
  all_goals simp_all

lemma linkMod_dvd_wordMod (m : record_manager) (h : m.linkWidth ≤ 8) :
    linkMod m ∣ wordMod :=
  pow_dvd_pow 2 (by omega)

lemma allocate_of_ok (m : record_manager) (s : storage) (n : Nat)
    (h : m.allocate_ok s n = true) :
    m.allocate s n = (m.record_count,
      { m with record_count := ((m.record_count + n) % wordMod) % linkMod m },
      (s.reserve (m.alloc_required n)).2) := by
  unfold record_manager.allocate_ok at h
  unfold record_manager.allocate
  rcases hr : s.reserve (m.alloc_required n) with ⟨b, s1⟩
  rw [hr] at h
  cases b
  all_goals simp_all

lemma allocate_of_fail (m : record_manager) (s : storage) (n : Nat)
    (h : m.allocate_ok s n = false) :
    m.allocate s n = (0, m, s) := by
  have h2 := reserve_snd_of_false s (m.alloc_required n) h
  unfold record_manager.allocate_ok at h
  unfold record_manager.allocate
  rcases hr : s.reserve (m.alloc_required n) with ⟨b, s1⟩
  rw [hr] at h h2
  cases b
  all_goals simp_all

lemma runAllocs_runningSums (ns : List Nat) :
    ∀ (m : record_manager) (s : storage), m.linkWidth ≤ 8 →
      allOk m s ns = true → m.record_count + ns.sum < linkMod m →
      (runAllocs m s ns).1 = runningSums m.record_count ns := by
  induction ns with
  | nil => intro m s _ _ _; rfl
  | cons n rest ih =>
    intro m s hw hok hsum
    rw [allOk, Bool.and_eq_true] at hok
    obtain ⟨h1, h2⟩ := hok
    have ha := allocate_of_ok m s n h1
    have hsum' : m.record_count + n + rest.sum < linkMod m := by
      simp only [List.sum_cons] at hsum; omega
    have hcnt : ((m.record_count + n) % wordMod) % linkMod m
        = m.record_count + n := by
      rw [Nat.mod_mod_of_dvd _ (linkMod_dvd_wordMod m hw)]
      exact Nat.mod_eq_of_lt (by omega)
    rw [ha, hcnt] at h2
    simp only [runAllocs, ha, hcnt, runningSums, List.cons.injEq, true_and,
      and_true]
    exact ih _ _ hw h2 hsum'

lemma readBytes_writeBytes_len (data bytes : List Nat) (off len : Nat)
    (h : off ≤ data.length) (hlen : bytes.length = len) :
    readBytes (writeBytes data off bytes) off len = bytes := by
  rw [← hlen]
  exact readBytes_writeBytes data bytes off h

lemma write_count_size (m : record_manager) (s : storage)
    (h1 : m.header_size + m.linkWidth ≤ s.size) :
    (m.write_count s).size = s.size := by
  unfold storage.size at h1
  unfold record_manager.write_count storage.size
  exact writeBytes_length _ _ _ (by rw [toLE_length]; omega)

lemma read_count_write_count (m : record_manager) (s : storage)
    (h1 : m.header_size + m.linkWidth ≤ s.size)
    (h2 : m.record_count < linkMod m) :
    m.read_count (m.write_count s) = m.record_count := by
  unfold storage.size at h1
  unfold record_manager.read_count record_manager.write_count
  rw [readBytes_writeBytes_len _ _ _ _ (by omega) (toLE_length _ _)]
  exact fromLE_toLE _ _ h2

lemma start_eq (m : record_manager) (s : storage) :
    m.start s = (decide ((m.header_size +
        m.link_to_position (m.read_count s)) % wordMod ≤ s.size),
      { m with record_count := m.read_count s }) :=
  rfl

lemma create_zero_aux (m : record_manager) (s : storage)
    (h0 : m.record_count = 0)
    (hw : m.header_size + m.linkWidth < wordMod)
    (hl : m.header_size + m.linkWidth ≤ s.limit) :
    ∃ s1, m.create s = some (true, s1) ∧
      s1.size = m.header_size + m.linkWidth ∧
      m.read_count s1 = 0 ∧
      m.start s1 = (true, m) := by
  have h_lw : m.linkWidth < wordMod := lt_of_le_of_lt (Nat.le_add_left _ _) hw
  have harg : (m.header_size + m.link_to_position m.record_count) % wordMod
      = m.header_size + m.linkWidth := by
    unfold record_manager.link_to_position
    rw [h0, Nat.zero_mul, Nat.add_zero, Nat.mod_eq_of_lt h_lw,
      Nat.mod_eq_of_lt hw]
  set s2 : storage := ⟨s.data.take (m.header_size + m.linkWidth)
      ++ List.replicate ((m.header_size + m.linkWidth) - s.data.length) 0,
      s.limit⟩ with hs2
  have hs2size : s2.size = m.header_size + m.linkWidth := by
    unfold storage.size
    rw [hs2]
    simp only [List.length_append, List.length_take, List.length_replicate]
    omega
  have hresize : s.resize (m.header_size + m.linkWidth) = some s2 := by
    unfold storage.resize
    rw [if_pos hl]
  have hcreate : m.create s = some (true, m.write_count s2) := by
    unfold record_manager.create
    rw [if_neg (by simp [h0]), harg, hresize]
  have hle2 : m.header_size + m.linkWidth ≤ s2.size := le_of_eq hs2size.symm
  have hsize1 : (m.write_count s2).size = m.header_size + m.linkWidth := by
    rw [write_count_size _ _ hle2, hs2size]
  have hread : m.read_count (m.write_count s2) = 0 := by
    rw [read_count_write_count _ _ hle2 (h0 ▸ Nat.two_pow_pos _), h0]
  have hm : ({ m with record_count := 0 } : record_manager) = m := by
    rw [← h0]
  refine ⟨_, hcreate, hsize1, hread, ?_⟩
  rw [start_eq, hread, hm, hsize1]
  unfold record_manager.link_to_position
  rw [Nat.zero_mul, Nat.add_zero, Nat.mod_eq_of_lt h_lw, Nat.mod_eq_of_lt hw]
  simp

/-! ### Concrete instances used by witnesses and counterexamples
(the spec's concrete scenario: `header_size=0`, `link_width=4`,
`record_size=10`). -/

def exM : record_manager := record_manager.construct 4 0 10

def exS : storage := ⟨[], 1000⟩

def exSbad : storage := ⟨[], 10⟩

def exM5 : record_manager := ⟨4, 2, 10, 3⟩

def exS5 : storage := ⟨List.replicate 40 9, 50⟩

def exS4 : storage := ⟨List.replicate 4 0, 1000⟩

def exS9 : storage := ⟨[], 64⟩

def exS9b : storage := ⟨[], 3⟩

def exSdirty : storage := ⟨7 :: 0 :: 0 :: 0 :: List.replicate 30 1, 100⟩

def exM8 : record_manager := ⟨4, 0, 2 ^ 33, 0⟩

def exS8 : storage := ⟨[], 100⟩

/-! ### Claim theorems -/

/-- C1: if the storage grow succeeds, `allocate(n)` returns the previous count
and advances `count()` by `n`; consequently, for every sequence of successful
`allocate` calls, each returned starting link equals the sum of all previously
allocated sizes and `count()` after each call equals that running sum. -/
theorem allocate_monotonicity (m : record_manager) (s : storage) (n : Nat)
    (hw : m.linkWidth ≤ 8) :
    (m.allocate_ok s n = true →
      (m.allocate s n).1 = m.count ∧
      (m.count + n < linkMod m → (m.allocate s n).2.1.count = m.count + n)) ∧
    (∀ ns : List Nat, allOk m s ns = true → m.count + ns.sum < linkMod m →
      (runAllocs m s ns).1 = runningSums m.count ns) := by
  constructor
  · intro h1
    have ha := allocate_of_ok m s n h1
    refine ⟨by rw [ha]; rfl, ?_⟩
    intro hlt
    rw [ha]
    show ((m.record_count + n) % wordMod) % linkMod m = m.count + n
    rw [Nat.mod_mod_of_dvd _ (linkMod_dvd_wordMod m hw)]
    exact Nat.mod_eq_of_lt hlt
  · intro ns hok hsum
    exact runAllocs_runningSums ns m s hw hok hsum

/-- Witness for C1: three successful allocations of sizes 3, 2, 5 from a fresh
store return links 0, 3, 5 with counts 3, 5, 10. -/
theorem allocate_monotonicity_witness :
    exM.linkWidth ≤ 8 ∧ allOk exM exS [3, 2, 5] = true ∧
    exM.count + [3, 2, 5].sum < linkMod exM ∧
    (runAllocs exM exS [3, 2, 5]).1 = runningSums exM.count [3, 2, 5] :=
  ⟨by decide, by decide, by decide,
    (allocate_monotonicity exM exS 3 (by decide)).2 [3, 2, 5]
      (by decide) (by decide)⟩

/-- C2 (amended): if the storage grow fails during `allocate(n)`, the manager
(hence `count()`) and the storage are left unchanged and 0 is returned — no
partial allocation is possible; the sentinel 0 is however not distinct from
every successful result (see the counterexample). -/
theorem allocate_failure_leaves_state (m : record_manager) (s : storage)
    (n : Nat) (h : m.allocate_ok s n = false) :
    m.allocate s n = (0, m, s) :=
  allocate_of_fail m s n h

/-- Witness for C2: a store whose storage rejects growth beyond 10 bytes
leaves everything unchanged on `allocate 3`. -/
theorem allocate_failure_leaves_state_witness :
    exM.allocate_ok exSbad 3 = false ∧
    exM.allocate exSbad 3 = (0, exM, exSbad) :=
  ⟨by decide, allocate_failure_leaves_state exM exSbad 3 (by decide)⟩

/-- C2 counterexample: the failure return value 0 is not distinct from any
successful result — a failing `allocate 3` and a successful `allocate 3` from
an empty manager both return 0. -/
theorem allocate_sentinel_collides :
    exM.allocate_ok exSbad 3 = false ∧ (exM.allocate exSbad 3).1 = 0 ∧
    exM.allocate_ok exS 3 = true ∧ (exM.allocate exS 3).1 = 0 := by decide

/-- C9: the failure return of `allocate` is the literal 0, which coincides
with the starting link of a successful allocation made at `count() == 0`: a
growth-accepting and a growth-rejecting empty store both yield return value 0,
so the return value alone does not determine success. -/
theorem allocate_zero_ambiguous :
    exM.allocate_ok exS9 2 = true ∧ (exM.allocate exS9 2).1 = 0 ∧
    (exM.allocate exS9 2).2.1.count = 2 ∧
    exM.allocate_ok exS9b 2 = false ∧ (exM.allocate exS9b 2).1 = 0 ∧
    (exM.allocate exS9b 2).2.1.count = 0 := by decide

/-- C3: `commit()` stores the count as exactly `linkWidth` little-endian bytes
at offset `header_size`; `start()` reads it back and returns whether the file
size is at least `header_size + linkWidth + count * record_size`; the
commit-then-start round trip restores `count()`, and a store initialized via
`create()` then reopened via `start()` yields `count() == 0` and `start()`
returning true. -/
theorem commit_start_roundtrip (m : record_manager) (s : storage)
    (h1 : m.header_size + m.linkWidth ≤ s.size)
    (h2 : m.record_count < linkMod m)
    (h3 : m.header_size + m.linkWidth + m.record_count * m.record_size
      < wordMod) :
    readBytes (m.commit s).data m.header_size m.linkWidth
      = toLE m.linkWidth m.count ∧
    (m.commit s).size = s.size ∧
    (m.start (m.commit s)).2.count = m.count ∧
    ((m.start (m.commit s)).1 = true ↔
      m.header_size + m.linkWidth + m.count * m.record_size ≤ s.size) ∧
    (∀ s2 : storage, m.record_count = 0 →
      m.header_size + m.linkWidth ≤ s2.limit →
      ∃ s3, m.create s2 = some (true, s3) ∧ m.start s3 = (true, m)) := by
  have hsz : (m.commit s).size = s.size := write_count_size m s h1
  have hrc : m.read_count (m.commit s) = m.record_count :=
    read_count_write_count m s h1 h2
  have hlt : m.linkWidth + m.record_count * m.record_size < wordMod := by
    have h := h3
    set x := m.record_count * m.record_size
    omega
  have hhl : m.header_size + m.linkWidth < wordMod := by
    have h := h3
    set x := m.record_count * m.record_size
    omega
  refine ⟨?_, hsz, ?_, ?_, ?_⟩
  · show readBytes (writeBytes s.data m.header_size
        (toLE m.linkWidth m.record_count)) m.header_size m.linkWidth
      = toLE m.linkWidth m.count
    unfold storage.size at h1
    exact readBytes_writeBytes_len _ _ _ _ (by omega) (toLE_length _ _)
  · rw [start_eq, hrc]
  · rw [start_eq, hrc, hsz]
    unfold record_manager.link_to_position
    rw [Nat.mod_eq_of_lt hlt, ← Nat.add_assoc, Nat.mod_eq_of_lt h3]
    exact decide_eq_true_iff
  · intro s2 h0 hl2
    obtain ⟨s3, hc, _, _, hst⟩ := create_zero_aux m s2 h0 hhl hl2
    exact ⟨s3, hc, hst⟩

/-- Witness for C3: a manager with `header_size=2`, `record_size=10`,
count 3 over a 40-byte file round-trips its count through commit/start, and a
fresh manager create-then-start reopens with count 0 and success. -/
theorem commit_start_roundtrip_witness :
    readBytes (exM5.commit exS5).data exM5.header_size exM5.linkWidth
      = toLE exM5.linkWidth exM5.count ∧
    (exM5.start (exM5.commit exS5)).2.count = exM5.count ∧
    ((exM5.start (exM5.commit exS5)).1 = true ↔
      exM5.header_size + exM5.linkWidth + exM5.count * exM5.record_size
        ≤ exS5.size) ∧
    (∃ s3, exM.create exS = some (true, s3) ∧ exM.start s3 = (true, exM)) := by
  have h := commit_start_roundtrip exM5 exS5 (by decide) (by decide) (by decide)
  have h4 := (commit_start_roundtrip exM exS4 (by decide) (by decide)
    (by decide)).2.2.2.2 exS (by decide) (by decide)
  exact ⟨h.1, h.2.2.1, h.2.2.2.1, h4⟩

/-- C4: `create()` returns false and changes nothing when the cached record
count is nonzero; otherwise it resizes the backing storage to exactly
`header_size + linkWidth` bytes, writes the count 0 to storage, and returns
true. -/
theorem create_spec (m : record_manager) (s : storage) :
    (m.record_count ≠ 0 → m.create s = some (false, s)) ∧
    (m.record_count = 0 → m.header_size + m.linkWidth < wordMod →
      m.header_size + m.linkWidth ≤ s.limit →
      ∃ s1, m.create s = some (true, s1) ∧
        s1.size = m.header_size + m.linkWidth ∧ m.read_count s1 = 0) := by
  constructor
  · intro h
    unfold record_manager.create
    rw [if_pos h]
  · intro h0 hw hl
    obtain ⟨s1, hc, hsz, hrd, _⟩ := create_zero_aux m s h0 hw hl
    exact ⟨s1, hc, hsz, hrd⟩

/-- Witness for C4: a manager with count 3 refuses `create()` and changes
nothing; a fresh manager creates a file of exactly `0 + 4` bytes holding
count 0. -/
theorem create_spec_witness :
    exM5.create exS5 = some (false, exS5) ∧
    ∃ s1, exM.create exS = some (true, s1) ∧
      s1.size = exM.header_size + exM.linkWidth ∧ exM.read_count s1 = 0 :=
  ⟨(create_spec exM5 exS5).1 (by decide),
    (create_spec exM exS).2 (by decide) (by decide) (by decide)⟩

/-- C10: `create()` consults only the in-memory cached count, never the
persisted count field: a freshly constructed manager (count cached as 0)
succeeds and resizes the file to exactly `header_size + linkWidth` bytes for
every backing file content, including files persisting a nonzero count. -/
theorem create_ignores_persisted (lw hs rs : Nat) (s : storage)
    (hw : hs + lw < wordMod) (hl : hs + lw ≤ s.limit) :
    ∃ s1, (record_manager.construct lw hs rs).create s = some (true, s1) ∧
      s1.size = hs + lw := by
  obtain ⟨s1, hc, hsz, _, _⟩ :=
    create_zero_aux (record_manager.construct lw hs rs) s rfl hw hl
  exact ⟨s1, hc, hsz⟩

/-- Witness for C10: the backing file persists count 7, yet the freshly
constructed manager's `create()` succeeds and truncates it to 4 bytes. -/
theorem create_ignores_persisted_witness :
    (record_manager.construct 4 0 10).read_count exSdirty = 7 ∧
    ∃ s1, (record_manager.construct 4 0 10).create exSdirty = some (true, s1) ∧
      s1.size = 0 + 4 :=
  ⟨by decide, create_ignores_persisted 4 0 10 exSdirty (by decide) (by decide)⟩

/-- C5: `set_count(v)` with `v` greater than the current count faults via the
fatal assertion (modelled as `none`, never a silent success), and with
`v ≤ count` it succeeds and the subsequent `count()` returns `v`. -/
theorem set_count_spec (m : record_manager) (v : Nat) :
    (m.count < v → m.set_count v = none) ∧
    (v ≤ m.count → ∃ m1, m.set_count v = some m1 ∧ m1.count = v) := by
  unfold record_manager.set_count record_manager.count
  constructor
  · intro h
    rw [if_neg (by omega)]
  · intro h
    rw [if_pos h]
    exact ⟨_, rfl, rfl⟩

/-- Witness for C5: on a manager with count 3, `set_count 7` faults and
`set_count 2` succeeds with a subsequent count of 2. -/
theorem set_count_spec_witness :
    exM5.set_count 7 = none ∧
    ∃ m1, exM5.set_count 2 = some m1 ∧ m1.count = 2 :=
  ⟨(set_count_spec exM5 7).1 (by decide), (set_count_spec exM5 2).2 (by decide)⟩

/-- C6: for every valid link below the count, `position_to_link` is the exact
inverse of `link_to_position`. -/
theorem position_link_inverse (m : record_manager) (link : Nat)
    (hrs : 0 < m.record_size) (hlt : link < m.record_count)
    (hc : m.record_count ≤ linkMod m)
    (hov : m.linkWidth + link * m.record_size < wordMod) :
    m.position_to_link (m.link_to_position link) = link := by
  unfold record_manager.link_to_position record_manager.position_to_link
  set x := link * m.record_size with hx
  rw [Nat.mod_eq_of_lt hov]
  have h1 : m.linkWidth + x + wordMod - m.linkWidth = x + wordMod := by omega
  have h2 : x < wordMod := by omega
  rw [h1, Nat.add_mod_right, Nat.mod_eq_of_lt h2, hx,
    Nat.mul_div_cancel _ hrs, Nat.mod_eq_of_lt (lt_of_lt_of_le hlt hc)]

/-- Witness for C6: link 2 of a manager with `record_size=10`, count 3
round-trips through `link_to_position` and `position_to_link`. -/
theorem position_link_inverse_witness :
    (2 : Nat) < exM5.record_count ∧
    exM5.position_to_link (exM5.link_to_position 2) = 2 :=
  ⟨by decide,
    position_link_inverse exM5 2 (by decide) (by decide) (by decide) (by decide)⟩

/-- C7: `get(L)` positions its accessor at byte offset
`header_size + linkWidth + L * record_size`; the mapping never consults the
in-memory count (it is total in the link) and is injective over links whose
offsets do not overflow. -/
theorem get_offset_spec (m : record_manager) (link c : Nat) :
    (m.header_size + m.linkWidth + link * m.record_size < wordMod →
      m.get link = m.header_size + m.linkWidth + link * m.record_size) ∧
    ({ m with record_count := c } : record_manager).get link = m.get link ∧
    (∀ l1 l2 : Nat, 0 < m.record_size →
      m.header_size + m.linkWidth + l1 * m.record_size < wordMod →
      m.header_size + m.linkWidth + l2 * m.record_size < wordMod →
      m.get l1 = m.get l2 → l1 = l2) := by
  have hval : ∀ l : Nat,
      m.header_size + m.linkWidth + l * m.record_size < wordMod →
      m.get l = m.header_size + m.linkWidth + l * m.record_size := by
    intro l hl
    unfold record_manager.get record_manager.link_to_position
    set x := l * m.record_size
    rw [Nat.mod_eq_of_lt (show m.linkWidth + x < wordMod by omega),
      ← Nat.add_assoc, Nat.mod_eq_of_lt hl]
  refine ⟨hval link, rfl, ?_⟩
  intro l1 l2 hrs hl1 hl2 heq
  rw [hval l1 hl1, hval l2 hl2] at heq
  exact Nat.eq_of_mul_eq_mul_right hrs (Nat.add_left_cancel heq)

/-- Witness for C7: `get 1` on the spec's concrete geometry with
`header_size=2` yields offset `2 + 4 + 10 = 16`, independent of the cached
count. -/
theorem get_offset_spec_witness :
    exM5.get 1 = exM5.header_size + exM5.linkWidth + 1 * exM5.record_size ∧
    ({ exM5 with record_count := 9 } : record_manager).get 1 = exM5.get 1 :=
  ⟨(get_offset_spec exM5 1 9).1 (by decide), (get_offset_spec exM5 1 9).2.1⟩

/-- C8 counterexample: with `sizeof(Link)=4` and `record_size=2^33`, the
position of link `2^31` is computed as 4 — the arithmetic silently wrapped
modulo 2^64 instead of detecting and faulting — and collides with the
position of link 0. -/
theorem link_to_position_overflow_counterexample :
    exM8.link_to_position (2 ^ 31) = 4 ∧ exM8.link_to_position 0 = 4 ∧
    (2 ^ 31 : Nat) ≠ 0 := by decide

/-- C8 (amended): the link/offset arithmetic does not guard against overflow
(the source marks this `TODO`): near the top of the representable range it
silently wraps modulo 2^64 — `link_to_position` maps the distinct links 0 and
`2^31` to the same position, and `allocate(2^31)` succeeds after reserving
only 4 bytes, far less than the allocated records require. -/
theorem overflow_wraps_silently :
    exM8.link_to_position (2 ^ 31) = exM8.link_to_position 0 ∧
    exM8.allocate_ok exS8 (2 ^ 31) = true ∧
    (exM8.allocate exS8 (2 ^ 31)).2.1.count = 2 ^ 31 ∧
    (exM8.allocate exS8 (2 ^ 31)).2.2.size = 4 ∧
    4 < exM8.linkWidth + 2 ^ 31 * exM8.record_size := by decide

end LibbitcoinDB
